import Mathlib

/-!
Verification development for the RustBuddyAI voice-command pipeline
(`buddy/src/audio.rs`, `intent.rs`, `config.rs`, `hotkey.rs`, `executor.rs`,
`main.rs`).  Rust machine integers are embedded as `ℤ`/`ℕ` with explicit
wrapping where the Rust semantics wraps; Rust `f32`/`f64` arithmetic is
embedded as exact rational arithmetic (`ℚ`), which is noted at each
definition it affects.
-/

namespace Buddy

/-- Wrapping cast to `i16` (Rust `as i16` on a wider integer): reduce
modulo `2^16` into the interval `[-32768, 32767]`. -/
def wrapI16 (x : ℤ) : ℤ := (x + 32768) % 65536 - 32768

/-- Truncation of a rational toward zero, the behaviour of Rust's
float-to-integer `as` casts when the value is in range (saturation never
triggers at the places this model uses it, which is proved where needed). -/
def truncQ (q : ℚ) : ℤ := Int.tdiv q.num q.den

/-- Rust `slice::chunks_exact(k)`: the consecutive length-`k` blocks of the
input in order, any shorter remainder dropped.  Rendered directly by its
take/drop characterisation (which also makes it structurally computable). -/
def chunksExact (k : ℕ) (l : List ℤ) : List (List ℤ) :=
  (List.range (l.length / k)).map (fun j => (l.drop (j * k)).take k)

/-- One output sample of the linear-interpolation branch of
`audio.rs::resample_linear` (the body of the `for i in 0..out_len` loop):
`pos = i / ratio`, `idx = pos.floor()`, `frac = pos - idx`, fetch `s0` at
`idx` and `s1` at `idx + 1` (falling back to `s0` when `idx + 1` is past the
end, the `samples.get(idx + 1).copied().unwrap_or(samples[idx])` clamp), and
blend.  The `f64`/`f32` arithmetic of the source is modelled exactly over
`ℚ`; in the model an out-of-bounds `samples[idx]` yields `0` where Rust
would panic (the theorems establish `idx` stays in bounds). -/
def linearSampleAt (samples : List ℤ) (ratio : ℚ) (i : ℕ) : ℤ :=
  let pos : ℚ := (i : ℚ) / ratio
  let idx : ℕ := (Int.toNat ⌊pos⌋)
  let frac : ℚ := pos - (idx : ℚ)
  let s0 : ℚ := ((samples.getD idx 0 : ℤ) : ℚ)
  let s1 : ℚ := ((samples.getD (idx + 1) (samples.getD idx 0) : ℤ) : ℚ)
  truncQ (s0 + (s1 - s0) * frac)

/-- Output length of the linear-interpolation branch:
`((samples.len() as f64) * ratio).max(1.0) as usize` (truncating cast of a
non-negative value, i.e. floor), with the `f64` product modelled exactly. -/
def linearOutLen (n : ℕ) (ratio : ℚ) : ℕ :=
  Int.toNat ⌊max ((n : ℚ) * ratio) 1⌋

/-- `audio.rs::resample_linear`.  Identity when the rates match or fewer than
two samples exist; block-averaging decimation (sum of each exact chunk,
`i32` division truncating toward zero, cast back to `i16`) when `src_rate`
is an integer multiple of `dst_rate` with factor above one; otherwise linear
interpolation at ratio `dst_rate / src_rate`.  `i32` sums are modelled as
exact integers (no real pair of audio rates makes a block long enough to
overflow `i32`). -/
def resample_linear (samples : List ℤ) (src_rate dst_rate : ℕ) : List ℤ :=
  if src_rate = dst_rate ∨ samples.length < 2 then
    samples
  else if src_rate % dst_rate = 0 ∧ 1 < src_rate / dst_rate then
    (chunksExact (src_rate / dst_rate) samples).map
      (fun chunk => wrapI16 (Int.tdiv chunk.sum ((src_rate / dst_rate : ℕ) : ℤ)))
  else
    (List.range (linearOutLen samples.length ((dst_rate : ℚ) / (src_rate : ℚ)))).map
      (linearSampleAt samples ((dst_rate : ℚ) / (src_rate : ℚ)))

/-- The fold of `audio.rs::peak_rms` (lines 238–245): running peak of
`sample.abs()` and running sum of squares.  `i16::abs` wraps at `i16::MIN`
(release-mode Rust), hence `wrapI16 |s|`; the square is the `i32`
`saturating_mul` (whose bound `2^31 - 1` is kept in the model) cast to `u64`,
and the `u64` accumulator wraps modulo `2^64`. -/
def peak_rms_acc (samples : List ℤ) : ℤ × ℤ :=
  samples.foldl
    (fun acc sample =>
      (max acc.1 (wrapI16 |sample|),
       (acc.2 + min (sample * sample) 2147483647) % 18446744073709551616))
    (0, 0)

/-- `audio.rs::peak_rms`: the folded peak, and
`(sum_sq as f64 / samples.len() as f64).sqrt()` modelled over `ℝ` (for the
empty list the model yields `√(0 / 0) = 0` where `f64` yields NaN; the
theorems only speak about non-empty buffers). -/
noncomputable def peak_rms (samples : List ℤ) : ℤ × ℝ :=
  ((peak_rms_acc samples).1,
   Real.sqrt (((peak_rms_acc samples).2 : ℝ) / (samples.length : ℝ)))

/-- A native sample tagged with its format, the three supported arms of the
`match self.sample_format` in `audio.rs::AudioCapturer::capture`
(lines 126–137). -/
inductive NativeSample where
  | i16 (s : ℤ)
  | u16 (s : ℤ)
  | f32 (s : ℚ)
deriving DecidableEq

/-- The per-format conversion closures of `AudioCapturer::capture`:
`I16` passes through; `U16` computes `sample as i32 - i16::MAX as i32 - 1`
and casts back to `i16`; `F32` clamps via `sample.max(-1.0).min(1.0)` and
scales by `i16::MAX as f32` before the truncating cast (float arithmetic
modelled exactly over `ℚ`). -/
def convert_sample : NativeSample → ℤ
  | NativeSample.i16 s => s
  | NativeSample.u16 s => wrapI16 (s - 32767 - 1)
  | NativeSample.f32 s => truncQ (min (max s (-1)) 1 * 32767)

/-- ASCII lowercasing of a string, character by character (Lean's
`Char.toLower` lowers exactly the ASCII uppercase range).  This models
Rust's `str::to_lowercase` / `to_ascii_lowercase` on the ASCII strings the
intent pipeline matches against (the four action keywords and the three
confidence words are all ASCII). -/
def lowerStr (s : String) : String := String.mk (s.data.map Char.toLower)

/-- Rust `str::trim` on the (ASCII) whitespace relevant here: drop leading
and trailing whitespace characters.  Implemented over the character list so
that it computes by kernel reduction. -/
def trimStr (s : String) : String :=
  String.mk
    (((s.data.dropWhile Char.isWhitespace).reverse.dropWhile Char.isWhitespace).reverse)

/-- Rust `str::eq_ignore_ascii_case`. -/
def eqIgnoreAsciiCase (a b : String) : Bool :=
  a.data.map Char.toLower == b.data.map Char.toLower

/-- `config.rs::SystemConfig`: the eight per-action enable flags. -/
structure SystemConfig where
  volume_mute : Bool
  volume_up : Bool
  volume_down : Bool
  volume_set : Bool
  sleep : Bool
  shutdown : Bool
  restart : Bool
  lock : Bool
deriving DecidableEq

/-- `config.rs::SystemConfig::enabled_actions`: the names of the enabled
system actions, pushed in the source's order. -/
def SystemConfig.enabled_actions (s : SystemConfig) : List String :=
  (if s.volume_mute then ["volume_mute"] else []) ++
  (if s.volume_up then ["volume_up"] else []) ++
  (if s.volume_down then ["volume_down"] else []) ++
  (if s.volume_set then ["volume_set"] else []) ++
  (if s.sleep then ["sleep"] else []) ++
  (if s.shutdown then ["shutdown"] else []) ++
  (if s.restart then ["restart"] else []) ++
  (if s.lock then ["lock"] else [])

/-- The slice of `config.rs::Config` the intent pipeline reads: the
file-key → path and app-key → command hash maps (modelled as association
lists) and the system-action flags. -/
structure Config where
  files : List (String × String)
  applications : List (String × String)
  system : SystemConfig
deriving DecidableEq

/-- `HashMap::contains_key` on an association-list rendering of the map. -/
def containsKey (m : List (String × String)) (k : String) : Bool :=
  m.any (fun p => p.1 == k)

/-- `config.rs::Config::system_actions` (which forwards to
`SystemConfig::enabled_actions`). -/
def Config.system_actions (c : Config) : List String :=
  c.system.enabled_actions

/-- A `serde_json::Value`, as far as the confidence field can observe it. -/
inductive JValue where
  | null
  | bool (b : Bool)
  | num (q : ℚ)
  | str (s : String)
  | arr (elems : List JValue)
  | obj (fields : List (String × JValue))

/-- `intent.rs::RawIntent`: the structurally parsed classifier response. -/
structure RawIntent where
  action : Option String
  target : Option String
  response : Option String
  confidence : Option JValue

/-- `intent.rs::Intent` (confidence `f32` modelled as `ℚ`). -/
inductive Intent where
  | OpenFile (target : String) (confidence : ℚ)
  | OpenApp (target : String) (confidence : ℚ)
  | System (target : String) (confidence : ℚ)
  | Answer (response : String) (confidence : ℚ)
  | Unknown (confidence : ℚ)
deriving DecidableEq

/-- `intent.rs::Intent::confidence`. -/
def Intent.confidence : Intent → ℚ
  | Intent.OpenFile _ c => c
  | Intent.OpenApp _ c => c
  | Intent.System _ c => c
  | Intent.Answer _ c => c
  | Intent.Unknown c => c

/-- `intent.rs::IntentAction`. -/
inductive IntentAction where
  | OpenFile
  | OpenApp
  | System
  | Answer
  | Unknown
deriving DecidableEq

/-- The confidence decoding in `impl From<RawIntent> for Intent`
(`intent.rs` lines 225–235): a JSON number passes through
(`num.as_f64().unwrap_or(0.0)`, which for a `serde_json` number is its
value, modelled exactly over `ℚ` rather than through the `f64`→`f32` cast),
a string is lowercased and matched against high/medium/low, a boolean maps
to 1 or 0, and anything else (missing field, null, array, object) to 0. -/
def decode_confidence : Option JValue → ℚ
  | some (JValue.num q) => q
  | some (JValue.str s) =>
      if lowerStr s = "high" then 9/10
      else if lowerStr s = "medium" then 3/5
      else if lowerStr s = "low" then 3/10
      else 0
  | some (JValue.bool b) => if b then 1 else 0
  | _ => 0

/-- The action decoding in `impl From<RawIntent> for Intent` (`intent.rs`
lines 212–224): the action string (default empty) is lowercased and matched
against the four keywords, anything else giving `Unknown`. -/
def decode_action (action : Option String) : IntentAction :=
  if lowerStr (action.getD "") = "open_file" then IntentAction.OpenFile
  else if lowerStr (action.getD "") = "open_app" then IntentAction.OpenApp
  else if lowerStr (action.getD "") = "system" then IntentAction.System
  else if lowerStr (action.getD "") = "answer" then IntentAction.Answer
  else IntentAction.Unknown

/-- `impl From<RawIntent> for Intent` (`intent.rs` lines 210–256): decode
the action and the confidence, then require the payload field of the
recognised action (`target` for the open/system actions, `response` for
answer), collapsing to `Unknown` when it is absent. -/
def intentFromRaw (raw : RawIntent) : Intent :=
  let confidence := decode_confidence raw.confidence
  match decode_action raw.action with
  | IntentAction.OpenFile =>
      (raw.target.map (fun t => Intent.OpenFile t confidence)).getD
        (Intent.Unknown confidence)
  | IntentAction.OpenApp =>
      (raw.target.map (fun t => Intent.OpenApp t confidence)).getD
        (Intent.Unknown confidence)
  | IntentAction.System =>
      (raw.target.map (fun t => Intent.System t confidence)).getD
        (Intent.Unknown confidence)
  | IntentAction.Answer =>
      (raw.response.map (fun r => Intent.Answer r confidence)).getD
        (Intent.Unknown confidence)
  | IntentAction.Unknown => Intent.Unknown confidence

/-- `intent.rs::IntentError` (payloads of the transport/serde variants are
external and dropped). -/
inductive IntentError where
  | Request
  | Http
  | Response
  | InvalidFormat (raw : String)
  | UnknownTarget (target : String)
deriving DecidableEq

/-- `intent.rs::validate_intent_target` (lines 114–137): `OpenFile` and
`OpenApp` targets must be keys of the corresponding mapping table, `System`
targets must be among the enabled system actions, and `Answer`/`Unknown`
always pass. -/
def validate_intent_target (intent : Intent) (config : Config) :
    Except IntentError Unit :=
  match intent with
  | Intent.OpenFile target _ =>
      if containsKey config.files target then Except.ok ()
      else Except.error (IntentError.UnknownTarget target)
  | Intent.OpenApp target _ =>
      if containsKey config.applications target then Except.ok ()
      else Except.error (IntentError.UnknownTarget target)
  | Intent.System target _ =>
      if (config.system_actions).contains target then Except.ok ()
      else Except.error (IntentError.UnknownTarget target)
  | Intent.Answer _ _ => Except.ok ()
  | Intent.Unknown _ => Except.ok ()

/-- Rust `str::strip_prefix` over character lists. -/
def stripPre (p : List Char) (l : List Char) : Option (List Char) :=
  if p.isPrefixOf l then some (l.drop p.length) else none

/-- Rust `str::strip_suffix` over character lists. -/
def stripSuf (p : List Char) (l : List Char) : Option (List Char) :=
  (stripPre p.reverse l.reverse).map List.reverse

/-- The code-fence stripping of `intent.rs::parse_intent` (lines 99–106):
trim, strip a leading three-backtick fence (with or without a `json` tag),
strip a trailing fence — each `unwrap_or` falling back to the trimmed
input — and trim again. -/
def stripFences (raw : String) : String :=
  let cleaned := (trimStr raw).data
  let afterPre := ((stripPre ("\x60\x60\x60json".data) cleaned).orElse
    (fun _ => stripPre ("\x60\x60\x60".data) cleaned)).getD cleaned
  let afterSuf := (stripSuf ("\x60\x60\x60".data) afterPre).getD cleaned
  trimStr (String.mk afterSuf)

/-- `intent.rs::parse_intent`: strip fences, parse the JSON body into a
`RawIntent` (the `serde_json::from_str` call is external and passed in as
`fromStr`), and convert.  A parse failure is `InvalidFormat` carrying the
raw text. -/
def parse_intent (fromStr : String → Option RawIntent) (raw : String) :
    Except IntentError Intent :=
  match fromStr (stripFences raw) with
  | none => Except.error (IntentError.InvalidFormat raw)
  | some parsed => Except.ok (intentFromRaw parsed)

/-- `intent.rs::IntentClient::infer_intent` (lines 25–65).  The HTTP round
trip is external: `remote` is its outcome (an error from
send/`error_for_status`/JSON decoding, or the optional `message.content` of
the response body); `fromStr` is `serde_json::from_str`.  The second
component records whether the remote call was issued: an empty or
whitespace-only transcription short-circuits to `Unknown` with confidence 0
before the request is built. -/
def infer_intent (fromStr : String → Option RawIntent)
    (transcription : String) (config : Config)
    (remote : Except IntentError (Option String)) :
    Except IntentError Intent × Bool :=
  if (trimStr transcription).data.isEmpty then
    (Except.ok (Intent.Unknown 0), false)
  else
    match remote with
    | Except.error e => (Except.error e, true)
    | Except.ok message =>
        let content := (message.map trimStr).getD ""
        match parse_intent fromStr content with
        | Except.error e => (Except.error e, true)
        | Except.ok intent =>
            match validate_intent_target intent config with
            | Except.error e => (Except.error e, true)
            | Except.ok _ => (Except.ok intent, true)

/-- One `GetMessageW` outcome seen by the hotkey worker loop
(`hotkey.rs` lines 102–113): a terminal return (`status <= 0`, i.e. the
`WM_QUIT` retrieval or an error return, both of which `break`), a `WM_HOTKEY`
message carrying its hotkey id, or any other message. -/
inductive HotkeyMsg where
  | terminal
  | hotkeyMsg (id : ℕ)
  | otherMsg
deriving DecidableEq

/-- The observable actions of the hotkey worker thread, in program order. -/
inductive WorkerAction where
  | registerKey
  | readyOk
  | readyErr
  | sendEvent
  | unregisterKey
deriving DecidableEq

/-- The message loop of `hotkey.rs::hotkey_worker`: process messages until a
terminal `GetMessageW` return, emitting one queue event per matching
`WM_HOTKEY`.  Returns the emitted actions and whether the loop (and so the
thread) has exited; an exhausted finite message list with no terminal entry
models the thread still blocked in `GetMessageW`. -/
def workerLoop (hotkeyId : ℕ) : List HotkeyMsg → List WorkerAction × Bool
  | [] => ([], false)
  | HotkeyMsg.terminal :: _ => ([], true)
  | HotkeyMsg.hotkeyMsg id :: rest =>
      let tail := workerLoop hotkeyId rest
      (((if id = hotkeyId then [WorkerAction.sendEvent] else []) ++ tail.1), tail.2)
  | HotkeyMsg.otherMsg :: rest => workerLoop hotkeyId rest

/-- `hotkey.rs::hotkey_worker` (lines 80–117) as a trace function: register
the hotkey (failure reports the error over the ready channel and returns
without ever holding the registration), report readiness, run the message
loop, and — after the loop breaks — call `UnregisterHotKey` before the
thread function returns.  The boolean is whether the thread has exited. -/
def hotkey_worker (hotkeyId : ℕ) (registerOk : Bool)
    (msgs : List HotkeyMsg) : List WorkerAction × Bool :=
  if registerOk then
    let looped := workerLoop hotkeyId msgs
    (([WorkerAction.registerKey, WorkerAction.readyOk] ++ looped.1 ++
      (if looped.2 then [WorkerAction.unregisterKey] else [])), looped.2)
  else
    ([WorkerAction.readyErr], true)

/-- `impl Drop for HotkeyListener` (`hotkey.rs` lines 65–74) composed with
the worker: the drop first posts `WM_QUIT` into the worker thread's message
queue (so the queue becomes the pending messages followed by a terminal
`GetMessageW` return) and then joins, i.e. the drop only returns once the
worker function has run to completion on that queue. -/
def drop_listener (hotkeyId : ℕ) (pending : List HotkeyMsg) :
    List WorkerAction × Bool :=
  hotkey_worker hotkeyId true (pending ++ [HotkeyMsg.terminal])

/-- `audio.rs::AudioError` (external `cpal` payloads dropped). -/
inductive AudioError where
  | Devices
  | DeviceNotFound (name : String)
  | NoDefaultDevice
  | DefaultConfig
  | UnsupportedFormat
  | BuildStream
  | PlayStream
  | BufferAccess
deriving DecidableEq

/-- `transcription.rs::TranscriptionError` (external status payloads
dropped). -/
inductive TranscriptionError where
  | Windows
  | CompilationStatus
  | RecognitionStatus
  | Unsupported
deriving DecidableEq

/-- `hotkey.rs::HotkeyError` (the Windows bridge's variants). -/
inductive HotkeyError where
  | Parse (key : String)
  | Register
  | Channel
  | ThreadInit
deriving DecidableEq

/-- `tokio::task::JoinError` outcome of the `spawn_blocking` capture task,
opaque. -/
inductive JoinError where
  | err
deriving DecidableEq

/-- `executor.rs::ExecutionError` (external payloads dropped). -/
inductive ExecutionError where
  | MissingMapping (key : String)
  | Windows
  | UnknownIntent
  | UnsupportedSystemAction (action : String)
  | Io
deriving DecidableEq

/-- `executor.rs::ExecutionResult`. -/
inductive ExecutionResult where
  | Action (message : String)
  | Answer (response : String)
deriving DecidableEq

/-- `main.rs::BuddyError`. -/
inductive BuddyError where
  | Config
  | Audio (e : AudioError)
  | Transcription (e : TranscriptionError)
  | Intent (e : IntentError)
  | Hotkey (e : HotkeyError)
  | Join (e : JoinError)
deriving DecidableEq

/-- A call on the feedback collaborator (`feedback.rs::FeedbackPlayer`):
`success()`, `error(message)` or `say(text)`. -/
inductive Feedback where
  | success
  | errorMsg (message : String)
  | say (text : String)
deriving DecidableEq

/-- The `trim_end_matches(|c| c == '.' || c == '!' || c == '?')` applied to
the trimmed transcript in `main.rs` (lines 194–196). -/
def dropTrailingPunct (s : String) : String :=
  String.mk ((s.data.reverse.dropWhile
    (fun c => c == '.' || c == '!' || c == '?')).reverse)

/-- The help text of `main.rs` line 198. -/
def helpText : String :=
  "Say: open <file>, launch <app>, set volume, mute, lock, sleep, or ask a question."

/-- `main.rs::handle_intent` (lines 362–389): a successful `Action` gives a
`success()` feedback call, a successful `Answer` speaks the response, an
`UnknownIntent` failure and any other failure give the two distinct error
feedback calls.  The executor collaborator's outcome is the argument. -/
def handle_intent (exec : Except ExecutionError ExecutionResult) : Feedback :=
  match exec with
  | Except.ok (ExecutionResult.Action _) => Feedback.success
  | Except.ok (ExecutionResult.Answer r) => Feedback.say r
  | Except.error ExecutionError.UnknownIntent =>
      Feedback.errorMsg "I don\x27t know how to do that"
  | Except.error _ => Feedback.errorMsg "Command failed"

/-- One iteration of the orchestrator loop, `main.rs::run` lines 163–237,
over the outcomes of its stages: `hk` from `hotkey.wait().await?`; `cap`
from `tokio::task::spawn_blocking(.. capture ..).await??` (outer join
result, inner capture result — both question marks propagate); `tr` from
`transcriber.transcribe(..)?`; `it` from `infer_intent` (matched, not
propagated); `exec` the executor collaborator's outcome inside
`handle_intent`.  The result is the list of feedback calls made this
iteration and `none` to continue looping or `some e` when the iteration
makes `run` return with error `e`. -/
def runIteration (hk : Except HotkeyError Unit)
    (cap : Except JoinError (Except AudioError (List ℤ)))
    (tr : Except TranscriptionError String)
    (it : Except IntentError Intent)
    (exec : Except ExecutionError ExecutionResult) :
    List Feedback × Option BuddyError :=
  match hk with
  | Except.error e => ([], some (BuddyError.Hotkey e))
  | Except.ok _ =>
    match cap with
    | Except.error e => ([], some (BuddyError.Join e))
    | Except.ok (Except.error e) => ([], some (BuddyError.Audio e))
    | Except.ok (Except.ok _) =>
      match tr with
      | Except.error e => ([], some (BuddyError.Transcription e))
      | Except.ok transcript =>
        if (trimStr transcript).data.isEmpty then
          ([Feedback.errorMsg "I didn\x27t hear anything"], none)
        else if eqIgnoreAsciiCase (dropTrailingPunct (trimStr transcript)) "help" then
          ([Feedback.say helpText], none)
        else
          match it with
          | Except.error _ => ([Feedback.errorMsg "Intent failed"], none)
          | Except.ok _ => ([handle_intent exec], none)

theorem wrapI16_eq_self {x : ℤ} (h1 : -32768 ≤ x) (h2 : x ≤ 32767) :
    wrapI16 x = x := by
  unfold wrapI16
  omega

theorem truncQ_intCast (n : ℤ) : truncQ ((n : ℤ) : ℚ) = n := by
  simp [truncQ, Rat.num_intCast, Rat.den_intCast]

theorem confidence_intentFromRaw (raw : RawIntent) :
    (intentFromRaw raw).confidence = decode_confidence raw.confidence := by
  obtain ⟨a, t, r, c⟩ := raw
  unfold intentFromRaw
  cases h : decode_action a <;> simp only [h] <;> cases t <;> cases r <;> rfl

/-- C4: a structurally parsed `OpenFile`, `OpenApp` or `System` intent whose
target is absent from, respectively, the file mapping, the application
mapping, or the enabled system-action set fails validation with an
`UnknownTarget` error; `Answer` and `Unknown` intents always pass. -/
theorem C4_unmapped_target_is_error (config : Config) (t response : String)
    (c : ℚ) (hf : ¬ ∃ p ∈ config.files, p.1 = t)
    (ha : ¬ ∃ p ∈ config.applications, p.1 = t)
    (hs : t ∉ config.system_actions) :
    validate_intent_target (Intent.OpenFile t c) config =
        Except.error (IntentError.UnknownTarget t)
    ∧ validate_intent_target (Intent.OpenApp t c) config =
        Except.error (IntentError.UnknownTarget t)
    ∧ validate_intent_target (Intent.System t c) config =
        Except.error (IntentError.UnknownTarget t)
    ∧ validate_intent_target (Intent.Answer response c) config = Except.ok ()
    ∧ validate_intent_target (Intent.Unknown c) config = Except.ok () := by
  refine ⟨?_, ?_, ?_, rfl, rfl⟩ <;>
    simp [validate_intent_target, containsKey, List.any_eq_true] <;>
    simp_all

/-- Witness for C4 at the spec's own example: target `ghost` with a file
mapping containing only `notes`. -/
theorem C4_witness :
    validate_intent_target (Intent.OpenFile "ghost" (9/10))
        (Config.mk [("notes", "notes.txt")] [("chrome", "chrome.exe")]
          (SystemConfig.mk true true true true true true true true)) =
      Except.error (IntentError.UnknownTarget "ghost")
    ∧ validate_intent_target (Intent.OpenApp "ghost" (9/10))
        (Config.mk [("notes", "notes.txt")] [("chrome", "chrome.exe")]
          (SystemConfig.mk true true true true true true true true)) =
      Except.error (IntentError.UnknownTarget "ghost")
    ∧ validate_intent_target (Intent.System "ghost" (9/10))
        (Config.mk [("notes", "notes.txt")] [("chrome", "chrome.exe")]
          (SystemConfig.mk true true true true true true true true)) =
      Except.error (IntentError.UnknownTarget "ghost")
    ∧ validate_intent_target (Intent.Answer "it is five" (9/10))
        (Config.mk [("notes", "notes.txt")] [("chrome", "chrome.exe")]
          (SystemConfig.mk true true true true true true true true)) =
      Except.ok ()
    ∧ validate_intent_target (Intent.Unknown (9/10))
        (Config.mk [("notes", "notes.txt")] [("chrome", "chrome.exe")]
          (SystemConfig.mk true true true true true true true true)) =
      Except.ok () :=
  C4_unmapped_target_is_error _ "ghost" "it is five" (9/10)
    (by decide) (by decide) (by decide)

/-- C5: sample-format normalisation: signed 16-bit passes through; unsigned
16-bit is recentred by subtracting the unsigned midpoint 32768 (so 32768
maps to 0); 32-bit float is clamped to `[-1, 1]` and scaled by
`i16::MAX = 32767` (so 1.5 clamps to 1 and maps to 32767). -/
theorem C5_format_normalisation (s : ℤ) (q : ℚ) :
    convert_sample (NativeSample.i16 s) = s
    ∧ (0 ≤ s → s ≤ 65535 → convert_sample (NativeSample.u16 s) = s - 32768)
    ∧ convert_sample (NativeSample.u16 32768) = 0
    ∧ (-1 ≤ q → q ≤ 1 →
        convert_sample (NativeSample.f32 q) = truncQ (q * 32767))
    ∧ (1 ≤ q → convert_sample (NativeSample.f32 q) = 32767)
    ∧ (q ≤ -1 → convert_sample (NativeSample.f32 q) = -32767)
    ∧ convert_sample (NativeSample.f32 (3/2)) = 32767 := by
  refine ⟨rfl, ?_, by decide, ?_, ?_, ?_, ?_⟩
  · intro h1 h2
    simp only [convert_sample, wrapI16]
    omega
  · intro h1 h2
    simp only [convert_sample]
    rw [max_eq_left h1, min_eq_left h2]
  · intro h1
    simp only [convert_sample]
    rw [max_eq_left (le_trans (by norm_num) h1), min_eq_right h1]
    have h32 : ((1 : ℚ) * 32767) = ((32767 : ℤ) : ℚ) := by norm_num
    rw [h32, truncQ_intCast]
  · intro h1
    simp only [convert_sample]
    rw [max_eq_right h1, min_eq_left (by norm_num : (-1 : ℚ) ≤ 1)]
    have h32 : ((-1 : ℚ) * 32767) = ((-32767 : ℤ) : ℚ) := by norm_num
    rw [h32, truncQ_intCast]
  · simp only [convert_sample]
    rw [max_eq_left (by norm_num : (-1 : ℚ) ≤ 3/2),
      min_eq_right (by norm_num : (1 : ℚ) ≤ 3/2)]
    have h32 : ((1 : ℚ) * 32767) = ((32767 : ℤ) : ℚ) := by norm_num
    rw [h32, truncQ_intCast]

/-- Witness for C5: the hypotheses of each conditional part discharged at
concrete samples (the midpoint unsigned sample, an in-range float, and
clamped floats on both sides). -/
theorem C5_witness :
    convert_sample (NativeSample.u16 32768) = 32768 - 32768
    ∧ convert_sample (NativeSample.f32 (1/2)) = truncQ ((1/2 : ℚ) * 32767)
    ∧ convert_sample (NativeSample.f32 2) = 32767
    ∧ convert_sample (NativeSample.f32 (-2)) = -32767 :=
  ⟨(C5_format_normalisation 32768 (1/2)).2.1 (by norm_num) (by norm_num),
   (C5_format_normalisation 32768 (1/2)).2.2.2.1 (by norm_num) (by norm_num),
   (C5_format_normalisation 0 2).2.2.2.2.1 (by norm_num),
   (C5_format_normalisation 0 (-2)).2.2.2.2.2.1 (by norm_num)⟩

/-- C7: the confidence carried by the intent built from a raw classifier
response: a JSON number gives its value; the strings high/medium/low give
0.9, 0.6, 0.3 case-insensitively; booleans give 1 and 0; every other shape
(any other string, a missing field, null, an array, an object) gives 0. -/
theorem C7_confidence_decoding (raw : RawIntent) (q : ℚ) (s : String) :
    (raw.confidence = some (JValue.num q) → (intentFromRaw raw).confidence = q)
    ∧ (raw.confidence = some (JValue.str s) → lowerStr s = "high" →
        (intentFromRaw raw).confidence = 9/10)
    ∧ (raw.confidence = some (JValue.str s) → lowerStr s = "medium" →
        (intentFromRaw raw).confidence = 3/5)
    ∧ (raw.confidence = some (JValue.str s) → lowerStr s = "low" →
        (intentFromRaw raw).confidence = 3/10)
    ∧ (raw.confidence = some (JValue.str s) → lowerStr s ≠ "high" →
        lowerStr s ≠ "medium" → lowerStr s ≠ "low" →
        (intentFromRaw raw).confidence = 0)
    ∧ (raw.confidence = some (JValue.bool true) →
        (intentFromRaw raw).confidence = 1)
    ∧ (raw.confidence = some (JValue.bool false) →
        (intentFromRaw raw).confidence = 0)
    ∧ (raw.confidence = none → (intentFromRaw raw).confidence = 0)
    ∧ (raw.confidence = some JValue.null → (intentFromRaw raw).confidence = 0)
    ∧ (∀ elems, raw.confidence = some (JValue.arr elems) →
        (intentFromRaw raw).confidence = 0)
    ∧ (∀ fields, raw.confidence = some (JValue.obj fields) →
        (intentFromRaw raw).confidence = 0) := by
  rw [confidence_intentFromRaw]
  refine ⟨fun h => by rw [h]; rfl,
          fun h h1 => by rw [h]; simp [decode_confidence, h1],
          fun h h1 => by rw [h]; simp [decode_confidence, h1],
          fun h h1 => by rw [h]; simp [decode_confidence, h1],
          fun h h1 h2 h3 => by rw [h]; simp [decode_confidence, h1, h2, h3],
          fun h => by rw [h]; rfl,
          fun h => by rw [h]; rfl,
          fun h => by rw [h]; rfl,
          fun h => by rw [h]; rfl,
          fun elems h => by rw [h]; rfl,
          fun fields h => by rw [h]; rfl⟩

/-- Witness for C7 at concrete shapes: the spec's examples `"medium"`,
`true` and an unrecognised string, plus a numeric confidence. -/
theorem C7_witness :
    (intentFromRaw (RawIntent.mk (some "answer") none (some "five")
        (some (JValue.num (4/5))))).confidence = 4/5
    ∧ (intentFromRaw (RawIntent.mk (some "answer") none (some "five")
        (some (JValue.str "MeDiUm")))).confidence = 3/5
    ∧ (intentFromRaw (RawIntent.mk (some "answer") none (some "five")
        (some (JValue.bool true)))).confidence = 1
    ∧ (intentFromRaw (RawIntent.mk (some "answer") none (some "five")
        (some (JValue.str "сertain")))).confidence = 0 :=
  ⟨(C7_confidence_decoding _ (4/5) "").1 rfl,
   (C7_confidence_decoding _ 0 "MeDiUm").2.2.1 rfl (by decide),
   (C7_confidence_decoding _ 0 "").2.2.2.2.2.1 rfl,
   (C7_confidence_decoding _ 0 "сertain").2.2.2.2.1 rfl
     (by decide) (by decide) (by decide)⟩

/-- C8: an empty or whitespace-only transcript makes `infer_intent` return
`Unknown` with confidence 0 without issuing the remote request (the second
component of the model records whether the HTTP call happened). -/
theorem C8_empty_transcript_no_call (fromStr : String → Option RawIntent)
    (t : String) (config : Config)
    (remote : Except IntentError (Option String))
    (h : (trimStr t).data.isEmpty = true) :
    infer_intent fromStr t config remote = (Except.ok (Intent.Unknown 0), false) := by
  simp [infer_intent, h]

/-- Witness for C8 at a whitespace-only transcript, with a remote outcome
that would fail if it were consulted. -/
theorem C8_witness :
    infer_intent (fun _ => none) " \t  "
      (Config.mk [] [] (SystemConfig.mk true true true true true true true true))
      (Except.error IntentError.Request) =
    (Except.ok (Intent.Unknown 0), false) :=
  C8_empty_transcript_no_call _ _ _ _ (by decide)

/-- C10: the classifier's action string is matched case-insensitively —
the intent built from a raw response depends on the action string only
through its lowercase form, so any casing of one of the four keywords
produces the same variant as the lowercase form. -/
theorem C10_action_case_insensitive (a b t r : Option String)
    (c : Option JValue) (h : lowerStr (a.getD "") = lowerStr (b.getD "")) :
    intentFromRaw (RawIntent.mk a t r c) = intentFromRaw (RawIntent.mk b t r c) := by
  unfold intentFromRaw decode_action
  rw [h]

/-- Witness for C10: the upper-case action `OPEN_FILE` yields the same
intent as the lowercase keyword. -/
theorem C10_witness :
    intentFromRaw (RawIntent.mk (some "OPEN_FILE") (some "notes") none none) =
      intentFromRaw (RawIntent.mk (some "open_file") (some "notes") none none) :=
  C10_action_case_insensitive (some "OPEN_FILE") (some "open_file")
    (some "notes") none none (by decide)

/-- Counterexample to C1 as stated: a buffer-access failure of the capture
stage does not turn into a feedback call with the loop continuing — the
iteration makes `run` return with the audio error (the `??` on the
`spawn_blocking` result propagates it), so a capture failure terminates the
pipeline with no feedback. -/
theorem C1_counterexample :
    runIteration (Except.ok ()) (Except.ok (Except.error AudioError.BufferAccess))
        (Except.ok "open notes") (Except.ok (Intent.Unknown 0))
        (Except.error ExecutionError.UnknownIntent) =
      ([], some (BuddyError.Audio AudioError.BufferAccess)) := rfl

/-- C1 as amended: per loop iteration, a hotkey-channel failure, a
capture-task join failure, a capture (device/stream/buffer) failure and a
transcription failure each make `run` return with the corresponding fatal
error and produce no feedback; an intent-classification failure and an
execution failure are caught, produce exactly one feedback call, and the
loop continues. -/
theorem C1_loop_error_policy (e_a : AudioError) (e_t : TranscriptionError)
    (e_j : JoinError) (e_i : IntentError) (e_x : ExecutionError)
    (cap : Except JoinError (Except AudioError (List ℤ)))
    (tr : Except TranscriptionError String)
    (it : Except IntentError Intent)
    (exec : Except ExecutionError ExecutionResult)
    (buf : List ℤ) (t : String)
    (ht : (trimStr t).data.isEmpty = false)
    (hh : eqIgnoreAsciiCase (dropTrailingPunct (trimStr t)) "help" = false) :
    runIteration (Except.error HotkeyError.Channel) cap tr it exec =
        ([], some (BuddyError.Hotkey HotkeyError.Channel))
    ∧ runIteration (Except.ok ()) (Except.error e_j) tr it exec =
        ([], some (BuddyError.Join e_j))
    ∧ runIteration (Except.ok ()) (Except.ok (Except.error e_a)) tr it exec =
        ([], some (BuddyError.Audio e_a))
    ∧ runIteration (Except.ok ()) (Except.ok (Except.ok buf)) (Except.error e_t)
        it exec = ([], some (BuddyError.Transcription e_t))
    ∧ runIteration (Except.ok ()) (Except.ok (Except.ok buf)) (Except.ok t)
        (Except.error e_i) exec = ([Feedback.errorMsg "Intent failed"], none)
    ∧ (∀ intent, runIteration (Except.ok ()) (Except.ok (Except.ok buf))
        (Except.ok t) (Except.ok intent) (Except.error e_x) =
          ([handle_intent (Except.error e_x)], none))
    ∧ (∃ msg, handle_intent (Except.error e_x) = Feedback.errorMsg msg) := by
  refine ⟨rfl, rfl, rfl, rfl, ?_, ?_, ?_⟩
  · simp [runIteration, ht, hh]
  · intro intent
    simp [runIteration, ht, hh]
  · cases e_x <;> exact ⟨_, rfl⟩

/-- Witness for C1's amended statement at the transcript `open notes` (a
non-empty, non-help transcript). -/
theorem C1_witness :
    runIteration (Except.error HotkeyError.Channel)
        (Except.ok (Except.ok [1])) (Except.ok "open notes")
        (Except.ok (Intent.Unknown 0)) (Except.error ExecutionError.Io) =
        ([], some (BuddyError.Hotkey HotkeyError.Channel))
    ∧ runIteration (Except.ok ()) (Except.error JoinError.err)
        (Except.ok "open notes") (Except.ok (Intent.Unknown 0))
        (Except.error ExecutionError.Io) = ([], some (BuddyError.Join JoinError.err))
    ∧ runIteration (Except.ok ())
        (Except.ok (Except.error AudioError.BuildStream)) (Except.ok "open notes")
        (Except.ok (Intent.Unknown 0)) (Except.error ExecutionError.Io) =
        ([], some (BuddyError.Audio AudioError.BuildStream))
    ∧ runIteration (Except.ok ()) (Except.ok (Except.ok [1]))
        (Except.error TranscriptionError.Windows) (Except.ok (Intent.Unknown 0))
        (Except.error ExecutionError.Io) =
        ([], some (BuddyError.Transcription TranscriptionError.Windows))
    ∧ runIteration (Except.ok ()) (Except.ok (Except.ok [1]))
        (Except.ok "open notes") (Except.error IntentError.Request)
        (Except.error ExecutionError.Io) = ([Feedback.errorMsg "Intent failed"], none)
    ∧ (∀ intent, runIteration (Except.ok ()) (Except.ok (Except.ok [1]))
        (Except.ok "open notes") (Except.ok intent)
        (Except.error ExecutionError.Io) =
          ([handle_intent (Except.error ExecutionError.Io)], none))
    ∧ (∃ msg, handle_intent (Except.error ExecutionError.Io) =
        Feedback.errorMsg msg) :=
  C1_loop_error_policy AudioError.BuildStream TranscriptionError.Windows
    JoinError.err IntentError.Request ExecutionError.Io
    (Except.ok (Except.ok [1])) (Except.ok "open notes")
    (Except.ok (Intent.Unknown 0)) (Except.error ExecutionError.Io)
    [1] "open notes" (by decide) (by decide)

theorem workerLoop_concat_terminal (id : ℕ) (ms : List HotkeyMsg) :
    (workerLoop id (ms ++ [HotkeyMsg.terminal])).2 = true := by
  induction ms with
  | nil => rfl
  | cons m rest ih => cases m <;> simp [workerLoop, ih]

theorem hotkey_worker_exit_unregisters (id : ℕ) (msgs : List HotkeyMsg)
    (h : (workerLoop id msgs).2 = true) :
    (hotkey_worker id true msgs).1.getLast? = some WorkerAction.unregisterKey := by
  simp only [hotkey_worker, if_pos, h, if_true]
  rw [List.getLast?_concat]

/-- C3: dropping an armed hotkey listener posts the quit signal into the
worker's message queue and joins, so the drop only returns once the worker
function has completed (`(drop_listener ..).2 = true`), and on every exit of
the armed worker — in particular the one the drop forces — the last action
before the thread terminates is the `UnregisterHotKey` call; a worker whose
registration failed exits without ever holding the registration. -/
theorem C3_drop_releases_registration (id : ℕ) (pending msgs : List HotkeyMsg)
    (h : (hotkey_worker id true msgs).2 = true) :
    (drop_listener id pending).2 = true
    ∧ (drop_listener id pending).1.getLast? = some WorkerAction.unregisterKey
    ∧ (hotkey_worker id true msgs).1.getLast? = some WorkerAction.unregisterKey
    ∧ WorkerAction.registerKey ∉ (hotkey_worker id false msgs).1 := by
  have hterm := workerLoop_concat_terminal id pending
  have hmsgs : (workerLoop id msgs).2 = true := by
    simpa [hotkey_worker] using h
  refine ⟨by simpa [drop_listener, hotkey_worker] using hterm,
          ?_, hotkey_worker_exit_unregisters id msgs hmsgs, by simp [hotkey_worker]⟩
  unfold drop_listener
  exact hotkey_worker_exit_unregisters id (pending ++ [HotkeyMsg.terminal]) hterm

/-- Witness for C3 with one pending hotkey event at drop time and an
already-terminated worker history. -/
theorem C3_witness :
    (drop_listener 1 [HotkeyMsg.hotkeyMsg 1]).2 = true
    ∧ (drop_listener 1 [HotkeyMsg.hotkeyMsg 1]).1.getLast? =
        some WorkerAction.unregisterKey
    ∧ (hotkey_worker 1 true [HotkeyMsg.otherMsg, HotkeyMsg.terminal]).1.getLast? =
        some WorkerAction.unregisterKey
    ∧ WorkerAction.registerKey ∉
        (hotkey_worker 1 false [HotkeyMsg.otherMsg, HotkeyMsg.terminal]).1 :=
  C3_drop_releases_registration 1 [HotkeyMsg.hotkeyMsg 1]
    [HotkeyMsg.otherMsg, HotkeyMsg.terminal] (by decide)

theorem tdiv_avg_bounds (s : ℤ) (k : ℕ) (hk : 0 < k)
    (h1 : -32768 * (k : ℤ) ≤ s) (h2 : s ≤ 32767 * (k : ℤ)) :
    -32768 ≤ Int.tdiv s (k : ℤ) ∧ Int.tdiv s (k : ℤ) ≤ 32767 := by
  have hk' : (0 : ℤ) < (k : ℤ) := by exact_mod_cast hk
  rcases le_or_lt 0 s with hs | hs
  · rw [Int.tdiv_eq_ediv hs (le_of_lt hk')]
    constructor
    · have := Int.ediv_nonneg hs (le_of_lt hk')
      omega
    · have hmono := Int.ediv_le_ediv hk' h2
      rwa [Int.mul_ediv_cancel 32767 (ne_of_gt hk')] at hmono
  · have hrw : Int.tdiv s (k : ℤ) = -(Int.tdiv (-s) (k : ℤ)) := by
      rw [← Int.neg_tdiv, neg_neg]
    have hpos : (0 : ℤ) ≤ -s := by omega
    rw [hrw, Int.tdiv_eq_ediv hpos (le_of_lt hk')]
    have hup : (-s) / (k : ℤ) ≤ 32768 := by
      have hmono := Int.ediv_le_ediv hk' (show -s ≤ 32768 * (k : ℤ) by omega)
      rwa [Int.mul_ediv_cancel 32768 (ne_of_gt hk')] at hmono
    have hlo := Int.ediv_nonneg hpos (le_of_lt hk')
    omega

theorem list_sum_bounds (l : List ℤ) (lo hi : ℤ)
    (h : ∀ x ∈ l, lo ≤ x ∧ x ≤ hi) :
    lo * l.length ≤ l.sum ∧ l.sum ≤ hi * l.length := by
  induction l with
  | nil => simp
  | cons a rest ih =>
    have ha := h a (by simp)
    have ih2 := ih (fun x hx => h x (by simp [hx]))
    simp only [List.sum_cons, List.length_cons]
    push_cast
    constructor <;> nlinarith [ih2.1, ih2.2, ha.1, ha.2]

theorem chunk_length_eq (l : List ℤ) (k j : ℕ) (hk : 0 < k)
    (hj : j < l.length / k) :
    ((l.drop (j * k)).take k).length = k := by
  have h1 : (j + 1) * k ≤ (l.length / k) * k :=
    Nat.mul_le_mul_right k hj
  have h2 : (l.length / k) * k ≤ l.length := Nat.div_mul_le_self _ _
  have h3 : (j + 1) * k = j * k + k := by ring
  simp only [List.length_take, List.length_drop]
  omega

/-- C6: in the exact-multiple (decimation) branch, `resample_linear`
averages each consecutive block of `factor` input samples into one output
sample — the output has one entry per complete block, and the `j`-th output
is the truncated integer average of the `j`-th block of the input. -/
theorem C6_decimation_averages (samples : List ℤ) (src dst factor : ℕ)
    (hdst : 0 < dst) (hfac : 1 < factor) (hsrc : src = factor * dst)
    (hlen : 2 ≤ samples.length)
    (hrange : ∀ s ∈ samples, -32768 ≤ s ∧ s ≤ 32767) :
    (resample_linear samples src dst).length = samples.length / factor
    ∧ ∀ j, j < samples.length / factor →
        (resample_linear samples src dst).getD j 0 =
          Int.tdiv ((samples.drop (j * factor)).take factor).sum (factor : ℤ) := by
  have hmod : src % dst = 0 := by rw [hsrc]; exact Nat.mul_mod_left factor dst
  have hdiv : src / dst = factor := by
    rw [hsrc, Nat.mul_div_cancel]
    exact hdst
  have hlt : dst < factor * dst := by
    have h2 : 2 * dst ≤ factor * dst := Nat.mul_le_mul_right dst hfac
    omega
  have hne : ¬(src = dst ∨ samples.length < 2) := by
    push_neg
    exact ⟨by omega, by omega⟩
  have hbranch : resample_linear samples src dst =
      (chunksExact factor samples).map
        (fun chunk => wrapI16 (Int.tdiv chunk.sum (factor : ℤ))) := by
    rw [resample_linear, if_neg hne, if_pos ⟨hmod, by rw [hdiv]; exact hfac⟩, hdiv]
  have hwrap : ∀ j, j < samples.length / factor →
      wrapI16 (Int.tdiv ((samples.drop (j * factor)).take factor).sum (factor : ℤ)) =
        Int.tdiv ((samples.drop (j * factor)).take factor).sum (factor : ℤ) := by
    intro j hj
    have hchunk := chunk_length_eq samples factor j (by omega) hj
    have hmem : ∀ x ∈ (samples.drop (j * factor)).take factor,
        -32768 ≤ x ∧ x ≤ 32767 := by
      intro x hx
      exact hrange x (List.mem_of_mem_drop (List.mem_of_mem_take hx))
    have hsum := list_sum_bounds _ (-32768) 32767 hmem
    rw [hchunk] at hsum
    have hbounds := tdiv_avg_bounds _ factor (by omega) hsum.1 hsum.2
    exact wrapI16_eq_self hbounds.1 hbounds.2
  constructor
  · rw [hbranch]
    simp [chunksExact]
  · intro j hj
    rw [hbranch]
    have hlen2 : ((chunksExact factor samples).map
        (fun chunk => wrapI16 (Int.tdiv chunk.sum (factor : ℤ)))).length =
        samples.length / factor := by simp [chunksExact]
    rw [List.getD_eq_getElem _ _ (by rw [hlen2]; exact hj)]
    simp only [chunksExact, List.getElem_map, List.getElem_range]
    exact hwrap j hj

/-- Witness for C6 at the spec's example: `[0,100,200,300,400,600]` from
rate 2 to rate 1 averages consecutive pairs, giving `[50,250,500]`. -/
theorem C6_witness :
    resample_linear [0, 100, 200, 300, 400, 600] 2 1 = [50, 250, 500] := by
  have h := C6_decimation_averages [0, 100, 200, 300, 400, 600] 2 1 2
    (by decide) (by decide) (by decide) (by decide) (by decide)
  have h0 := h.2 0 (by decide)
  have h1 := h.2 1 (by decide)
  have h2 := h.2 2 (by decide)
  have hl := h.1
  revert h0 h1 h2 hl
  decide

theorem peak_rms_fold_spec (l : List ℤ) (p sq : ℤ)
    (hrange : ∀ s ∈ l, -32768 < s ∧ s ≤ 32767) (hsq : 0 ≤ sq)
    (hbound : sq + (l.map (fun s => s * s)).sum < 18446744073709551616) :
    l.foldl
      (fun acc sample =>
        (max acc.1 (wrapI16 |sample|),
         (acc.2 + min (sample * sample) 2147483647) % 18446744073709551616))
      (p, sq) =
    ((l.map (fun s => |s|)).foldl max p, sq + (l.map (fun s => s * s)).sum) := by
  induction l generalizing p sq with
  | nil => simp
  | cons a rest ih =>
    have ha := hrange a (by simp)
    have habs_le : |a| ≤ 32767 := abs_le.mpr ⟨by omega, ha.2⟩
    have habs : wrapI16 |a| = |a| :=
      wrapI16_eq_self (le_trans (by norm_num) (abs_nonneg a)) habs_le
    have hmin : min (a * a) 2147483647 = a * a :=
      min_eq_left (by nlinarith [ha.1, ha.2])
    have hsq2 : 0 ≤ a * a := mul_self_nonneg a
    have hrest_nonneg : 0 ≤ (rest.map (fun s => s * s)).sum := by
      apply List.sum_nonneg
      intro x hx
      simp only [List.mem_map] at hx
      obtain ⟨s, _, rfl⟩ := hx
      exact mul_self_nonneg s
    have hsum_cons : ((a :: rest).map (fun s => s * s)).sum =
        a * a + (rest.map (fun s => s * s)).sum := by simp
    rw [hsum_cons] at hbound
    have hmod : (sq + min (a * a) 2147483647) % 18446744073709551616 =
        sq + a * a := by
      rw [hmin, Int.emod_eq_of_lt (by omega) (by omega)]
    simp only [List.foldl_cons, List.map_cons, List.sum_cons]
    rw [show (max p (wrapI16 |a|),
          (sq + min (a * a) 2147483647) % 18446744073709551616) =
        (max p |a|, sq + a * a) from by rw [habs, hmod]]
    rw [ih (max p |a|) (sq + a * a)
      (fun s hs => hrange s (by simp [hs])) (by omega) (by omega), add_assoc]

/-- Counterexample to C9 as stated: `peak_rms` does not return the maximum
absolute value on every buffer.  At the single-sample buffer `[-32768]`
(`i16::MIN`), `sample.abs()` overflows `i16` and wraps back to `-32768`
(release-mode Rust; debug mode panics), so the folded peak stays `0` instead
of the true maximum absolute value `32768`. -/
theorem C9_counterexample :
    (peak_rms [(-32768 : ℤ)]).1 = 0
    ∧ (peak_rms [(-32768 : ℤ)]).1 ≠ |(-32768 : ℤ)| := by
  have h : (peak_rms_acc [(-32768 : ℤ)]).1 = 0 := by decide
  constructor
  · exact h
  · show (peak_rms_acc [(-32768 : ℤ)]).1 ≠ |(-32768 : ℤ)|
    rw [h]
    decide

/-- C9 as amended: for a non-empty buffer none of whose samples is
`i16::MIN = -32768` (whose absolute value overflows `i16`) and whose length
is below `2^34` (so the `u64` square accumulator cannot wrap; any real
capture buffer is far below this), `peak_rms` returns the maximum absolute
value as peak, accumulates exactly the sum of squares in the wide
accumulator, and returns the square root of the mean of the squared samples
as rms. -/
theorem C9_peak_rms_spec (samples : List ℤ) (_hne : samples ≠ [])
    (hrange : ∀ s ∈ samples, -32768 < s ∧ s ≤ 32767)
    (hlen : samples.length < 17179869184) :
    (peak_rms samples).1 = (samples.map (fun s => |s|)).foldl max 0
    ∧ (peak_rms_acc samples).2 = (samples.map (fun s => s * s)).sum
    ∧ (peak_rms samples).2 =
        Real.sqrt ((((samples.map (fun s => s * s)).sum : ℤ) : ℝ) /
          (samples.length : ℝ)) := by
  have hsq_le : ∀ x ∈ samples.map (fun s => s * s), x ≤ 1073676289 := by
    intro x hx
    simp only [List.mem_map] at hx
    obtain ⟨s, hs, rfl⟩ := hx
    have := hrange s hs
    nlinarith [this.1, this.2]
  have hsum_le : (samples.map (fun s => s * s)).sum ≤
      (samples.length : ℤ) * 1073676289 := by
    have h := List.sum_le_card_nsmul (samples.map (fun s => s * s))
      1073676289 hsq_le
    simpa [nsmul_eq_mul] using h
  have hlen' : (samples.length : ℤ) < 17179869184 := by exact_mod_cast hlen
  have hbound : (0 : ℤ) + (samples.map (fun s => s * s)).sum <
      18446744073709551616 := by omega
  have hfold := peak_rms_fold_spec samples 0 0 hrange le_rfl hbound
  have hacc : peak_rms_acc samples =
      ((samples.map (fun s => |s|)).foldl max 0,
       (samples.map (fun s => s * s)).sum) := by
    rw [peak_rms_acc, hfold]
    norm_num
  refine ⟨?_, ?_, ?_⟩
  · show (peak_rms_acc samples).1 = _
    rw [hacc]
  · rw [hacc]
  · show Real.sqrt (((peak_rms_acc samples).2 : ℝ) / (samples.length : ℝ)) = _
    rw [hacc]

/-- Witness for C9 at the buffer `[3, -4]`: peak 4, sum of squares 25, rms
`√(25 / 2)`. -/
theorem C9_witness :
    (peak_rms [(3 : ℤ), -4]).1 =
        (([(3 : ℤ), -4]).map (fun s => |s|)).foldl max 0
    ∧ (peak_rms_acc [(3 : ℤ), -4]).2 = (([(3 : ℤ), -4]).map (fun s => s * s)).sum
    ∧ (peak_rms [(3 : ℤ), -4]).2 =
        Real.sqrt ((((([(3 : ℤ), -4]).map (fun s => s * s)).sum : ℤ) : ℝ) /
          (([(3 : ℤ), -4] : List ℤ).length : ℝ)) :=
  C9_peak_rms_spec [3, -4] (by decide) (by decide) (by decide)

theorem toNat_floor_max_one (x : ℚ) :
    Int.toNat ⌊max x 1⌋ = max 1 (Int.toNat ⌊x⌋) := by
  have h : ⌊max x 1⌋ = max ⌊x⌋ 1 := by
    rcases le_total x 1 with h1 | h1
    · rw [max_eq_right h1, max_eq_right (by simpa using Int.floor_le_floor h1),
        Int.floor_one]
    · rw [max_eq_left h1, max_eq_left (by simpa using Int.floor_le_floor h1)]
  rw [h]
  omega

theorem linear_idx_lt (n : ℕ) (ratio : ℚ) (hratio : 0 < ratio) (hn : 1 ≤ n)
    (i : ℕ) (hi : i < linearOutLen n ratio) :
    Int.toNat ⌊(i : ℚ) / ratio⌋ < n := by
  rcases le_total ((n : ℚ) * ratio) 1 with hcase | hcase
  · have hout : linearOutLen n ratio = 1 := by
      rw [linearOutLen, max_eq_right hcase, Int.floor_one]
      rfl
    rw [hout] at hi
    have hi0 : i = 0 := by omega
    subst hi0
    simp
    omega
  · have hout : linearOutLen n ratio = Int.toNat ⌊(n : ℚ) * ratio⌋ := by
      rw [linearOutLen, max_eq_left hcase]
    rw [hout] at hi
    have hiz : (i : ℤ) < ⌊(n : ℚ) * ratio⌋ := by omega
    have hiq : (i : ℚ) < (n : ℚ) * ratio := by
      have hfl : (⌊(n : ℚ) * ratio⌋ : ℚ) ≤ (n : ℚ) * ratio := Int.floor_le _
      have : ((i : ℤ) : ℚ) < (⌊(n : ℚ) * ratio⌋ : ℚ) := by exact_mod_cast hiz
      push_cast at this
      linarith
    have hdivlt : (i : ℚ) / ratio < (n : ℚ) := (div_lt_iff₀ hratio).mpr hiq
    have := Int.floor_lt.mpr (show (i : ℚ) / ratio < ((n : ℤ) : ℚ) by
      exact_mod_cast hdivlt)
    omega

/-- Counterexample to C2 as stated: in the non-identity regime the output
length is not `ceil(N * dst/src)`.  Resampling five samples from rate 2 to
rate 1 goes through the decimation branch, whose `chunks_exact` drops the
incomplete final block: the output has 2 samples, while
`ceil(5 * 1/2) = 3` (the code truncates — `as usize` floors — rather than
rounding up). -/
theorem C2_counterexample :
    (resample_linear (List.replicate 5 (0 : ℤ)) 2 1).length = 2
    ∧ max 1 (Int.toNat ⌈((List.replicate 5 (0 : ℤ)).length : ℚ) * 1 / 2⌉) = 3
    ∧ (resample_linear (List.replicate 5 (0 : ℤ)) 2 1).length ≠
        max 1 (Int.toNat ⌈((List.replicate 5 (0 : ℤ)).length : ℚ) * 1 / 2⌉) := by
  have h1 : (resample_linear (List.replicate 5 (0 : ℤ)) 2 1).length = 2 := by decide
  have h2 : max 1 (Int.toNat ⌈((List.replicate 5 (0 : ℤ)).length : ℚ) * 1 / 2⌉) = 3 := by
    have hc : ⌈((List.replicate 5 (0 : ℤ)).length : ℚ) * 1 / 2⌉ = 3 := by
      rw [Int.ceil_eq_iff]
      norm_num
    rw [hc]
    decide
  exact ⟨h1, h2, by rw [h1, h2]; decide⟩

/-- C2 as amended: `resample_linear` is the identity when the rates match or
fewer than two samples exist.  Otherwise the output length rounds DOWN, not
up: in the decimation branch (when `src` is a multiple of `dst`) it is
`N / (src/dst) = floor(N * dst/src)`; in the linear-interpolation branch it
is `max 1 (floor(N * dst/src))`.  In the linear branch, an output position
whose source index reaches past the end of the input clamps to the last
input sample. -/
theorem C2_resample_shape (samples : List ℤ) (src dst : ℕ)
    (hsrc : 0 < src) (hdst : 0 < dst) :
    (src = dst ∨ samples.length < 2 → resample_linear samples src dst = samples)
    ∧ (¬(src = dst ∨ samples.length < 2) → src % dst = 0 →
        (resample_linear samples src dst).length = samples.length / (src / dst)
        ∧ (resample_linear samples src dst).length = samples.length * dst / src)
    ∧ (¬(src = dst ∨ samples.length < 2) → src % dst ≠ 0 →
        (resample_linear samples src dst).length =
          max 1 (Int.toNat ⌊(samples.length : ℚ) * ((dst : ℚ) / (src : ℚ))⌋)
        ∧ ∀ i, i < (resample_linear samples src dst).length →
            samples.length ≤ Int.toNat ⌊(i : ℚ) / ((dst : ℚ) / (src : ℚ))⌋ + 1 →
            (resample_linear samples src dst).getD i 0 =
              samples.getD (samples.length - 1) 0) := by
  refine ⟨fun h => by rw [resample_linear, if_pos h], ?_, ?_⟩
  · intro hne hmod
    obtain ⟨f, hf⟩ : dst ∣ src := Nat.dvd_of_mod_eq_zero hmod
    have hf0 : f ≠ 0 := by rintro rfl; omega
    have hf1 : f ≠ 1 := by rintro rfl; push_neg at hne; omega
    have hdiv : src / dst = f := by
      rw [hf, Nat.mul_div_cancel_left f hdst]
    have hbranch : resample_linear samples src dst =
        (chunksExact (src / dst) samples).map
          (fun chunk => wrapI16 (Int.tdiv chunk.sum ((src / dst : ℕ) : ℤ))) := by
      rw [resample_linear, if_neg hne, if_pos ⟨hmod, by omega⟩]
    have hlen1 : (resample_linear samples src dst).length =
        samples.length / (src / dst) := by
      rw [hbranch]
      simp [chunksExact]
    refine ⟨hlen1, ?_⟩
    rw [hlen1, hdiv, hf, mul_comm samples.length dst,
      Nat.mul_div_mul_left samples.length f hdst]
  · intro hne hmod
    have hsd : ¬(src % dst = 0 ∧ 1 < src / dst) := fun h => hmod h.1
    have hbranch : resample_linear samples src dst =
        (List.range (linearOutLen samples.length ((dst : ℚ) / (src : ℚ)))).map
          (linearSampleAt samples ((dst : ℚ) / (src : ℚ))) := by
      rw [resample_linear, if_neg hne, if_neg hsd]
    have hratio : (0 : ℚ) < (dst : ℚ) / (src : ℚ) := by
      apply div_pos <;> exact_mod_cast (by omega : (0:ℕ) < _)
    have hn2 : 2 ≤ samples.length := by push_neg at hne; omega
    have hlenlin : (resample_linear samples src dst).length =
        linearOutLen samples.length ((dst : ℚ) / (src : ℚ)) := by
      rw [hbranch]
      simp
    constructor
    · rw [hlenlin, linearOutLen, toNat_floor_max_one]
    · intro i hi hpast
      rw [hlenlin] at hi
      have hidx_lt := linear_idx_lt samples.length ((dst : ℚ) / (src : ℚ))
        hratio (by omega) i hi
      set idx := Int.toNat ⌊(i : ℚ) / ((dst : ℚ) / (src : ℚ))⌋ with hidx
      have hidx_eq : idx = samples.length - 1 := by omega
      rw [hbranch, List.getD_eq_getElem _ _ (by simpa using hi)]
      rw [List.getElem_map, List.getElem_range]
      rw [linearSampleAt]
      simp only [← hidx]
      rw [hidx_eq]
      have hs1 : samples.getD (samples.length - 1 + 1)
          (samples.getD (samples.length - 1) 0) =
          samples.getD (samples.length - 1) 0 :=
        List.getD_eq_default _ _ (by omega)
      rw [hs1]
      have hring : ((samples.getD (samples.length - 1) 0 : ℤ) : ℚ) +
          (((samples.getD (samples.length - 1) 0 : ℤ) : ℚ) -
            ((samples.getD (samples.length - 1) 0 : ℤ) : ℚ)) *
            ((i : ℚ) / ((dst : ℚ) / (src : ℚ)) - ((samples.length - 1 : ℕ) : ℚ)) =
          ((samples.getD (samples.length - 1) 0 : ℤ) : ℚ) := by ring
      rw [hring, truncQ_intCast]

/-- Witness for C2: the identity cases at matching rates and at a
single-sample buffer; the decimation-branch length (5 samples at 4:2,
floor 5/2 = 2); and the linear branch at 2:3 upsampling of two samples,
whose length is `max 1 (floor(2 * 3/2)) = 3` and whose final output sample
clamps to the last input sample. -/
theorem C2_witness :
    resample_linear [(7 : ℤ), 8] 4 4 = [7, 8]
    ∧ resample_linear [(7 : ℤ)] 4 2 = [7]
    ∧ (resample_linear [(1 : ℤ), 2, 3, 4, 5] 4 2).length = 5 / (4 / 2)
    ∧ (resample_linear [(1 : ℤ), 2, 3, 4, 5] 4 2).length = 5 * 2 / 4
    ∧ (resample_linear [(10 : ℤ), 20] 2 3).length =
        max 1 (Int.toNat ⌊(([(10 : ℤ), 20] : List ℤ).length : ℚ) *
          (((3 : ℕ) : ℚ) / ((2 : ℕ) : ℚ))⌋)
    ∧ (resample_linear [(10 : ℤ), 20] 2 3).getD 2 0 =
        ([(10 : ℤ), 20] : List ℤ).getD (([(10 : ℤ), 20] : List ℤ).length - 1) 0 := by
  have hid := (C2_resample_shape [(7 : ℤ), 8] 4 4 (by decide) (by decide)).1
    (Or.inl rfl)
  have hid2 := (C2_resample_shape [(7 : ℤ)] 4 2 (by decide) (by decide)).1
    (Or.inr (by decide))
  have hdec := (C2_resample_shape [(1 : ℤ), 2, 3, 4, 5] 4 2 (by decide)
    (by decide)).2.1 (by decide) (by decide)
  have hlin := (C2_resample_shape [(10 : ℤ), 20] 2 3 (by decide)
    (by decide)).2.2 (by decide) (by decide)
  have hlen3 : (resample_linear [(10 : ℤ), 20] 2 3).length = 3 := by
    rw [hlin.1]
    norm_num
    decide
  have hclamp := hlin.2 2 (by omega) (by norm_num)
  exact ⟨hid, hid2, hdec.1, hdec.2, hlin.1, hclamp⟩

end Buddy
